import Mathlib

/-!
Verification of the EMMAR-DELIVERY JSON storage core and its derived
calculators (commission and payroll engines), shallowly embedded from
`utils/json_store.py`, `emar-delivery/utils/commissions.py` and
`utils/payroll.py`.

Modelling conventions:
* JSON values are an inductive type `JVal`; numbers are exact rationals
  (all monetary values in the claims are exact multiples of 1/1000, so
  the binary-float error of the Python runtime is irrelevant to them).
* `datetime.now()` is a strictly increasing abstract clock: the store
  state carries a `clock : Nat` tick counter and every `now()` call in
  the Python source returns the current tick and advances the counter.
  Timestamps are the `Value.vtime` constructor.
* `str(uuid.uuid4())` is an environment-supplied character list given to
  `create` as an explicit argument; the source truncates it to its first
  8 characters (`[:8]`).
* File-system failure paths (lock contention, IOError retry loops) are
  outside the single-process model: `_write_with_lock` succeeds, as it
  does on every non-exceptional path of the source.
-/

/-- JSON-compatible values as parsed by `json.load`. -/
inductive JVal : Type where
  | jnull : JVal
  | jbool : Bool → JVal
  | jnum : ℚ → JVal
  | jstr : String → JVal
  | jarr : List JVal → JVal
  | jobj : List (String × JVal) → JVal

/-- The possible states of a collection file on disk, as far as
`_read_with_lock` can distinguish them. -/
inductive FileContent : Type where
  | absent : FileContent
  | emptyFile : FileContent
  | malformed : FileContent
  | content : JVal → FileContent

/-- `json.load` on an open file: an empty file or malformed bytes raise
`JSONDecodeError`, modelled as `Except.error`. -/
def jsonLoad : FileContent → Except Unit JVal
  | FileContent.absent => Except.error ()
  | FileContent.emptyFile => Except.error ()
  | FileContent.malformed => Except.error ()
  | FileContent.content v => Except.ok v

/-- Is a parsed JSON value a list (`isinstance(data, list)`)? -/
def JVal.isList : JVal → Bool
  | JVal.jarr _ => true
  | _ => false

/-- `JSONStore._read_with_lock` (json_store.py lines 56-108): a missing
file returns `[]` before any open; otherwise the file is parsed, a
`JSONDecodeError` is caught and degrades to `[]`, and a parsed value
that is not a list also degrades to `[]`. Total function: no raise. -/
def readWithLock : FileContent → List JVal
  | FileContent.absent => []
  | fc =>
    match jsonLoad fc with
    | Except.error _ => []
    | Except.ok v =>
      match v with
      | JVal.jarr l => l
      | _ => []

/-- `JSONStore.read_all` at the file level (json_store.py lines 231-234). -/
def read_all_file (fc : FileContent) : List JVal :=
  readWithLock fc

/-! ## The record store

Records are Python dicts: association lists with unique keys kept in
insertion order.  `dict.update` overwrites the value of an existing key
in place and appends a fresh key at the end; `dict.get` returns the
value of the key or `None`. -/

/-- Field values stored in records. `vtime t` is the ISO-8601 timestamp
produced by the `t`-th reading of the abstract clock. -/
inductive Value : Type where
  | vstr : String → Value
  | vnum : ℚ → Value
  | vbool : Bool → Value
  | vnull : Value
  | vtime : Nat → Value
deriving DecidableEq, Repr

/-- A record: a Python dict from string keys to values, modelled as an
insertion-ordered association list. -/
abbrev Record : Type := List (String × Value)

/-- `r.get(k)`: value of the first (and by dict semantics only) binding
of `k`, or `None`. -/
def getField (r : Record) (k : String) : Option Value :=
  (r.find? (fun p => p.1 == k)).map (fun p => p.2)

/-- `k in r`. -/
def hasKey (r : Record) (k : String) : Bool :=
  r.any (fun p => p.1 == k)

/-- `r[k] = v`: overwrite the existing binding in place (dict keys are
unique, so the first occurrence is the binding), else append at the
end — Python dict assignment preserves insertion order. -/
def setField : Record → String → Value → Record
  | [], k, v => [(k, v)]
  | p :: rs, k, v => if p.1 == k then (k, v) :: rs else p :: setField rs k v

/-- `r.update(u)`: apply every binding of `u` in order (dict.update). -/
def dictUpdate (r : Record) (u : Record) : Record :=
  u.foldl (fun acc p => setField acc p.1 p.2) r

/-- `record.get('id') == record_id` — the Python comparison of the `id`
field against the string `record_id`. -/
def matchesId (r : Record) (rid : String) : Bool :=
  getField r "id" == some (Value.vstr rid)

/-- State of one collection: the parsed array currently on disk plus
the abstract clock. -/
structure StoreState : Type where
  records : List Record
  clock : Nat
deriving DecidableEq, Repr

namespace JSONStore

/-- `JSONStore.read_all` on a healthy collection file (lines 231-234):
the parsed array. -/
def read_all (s : StoreState) : List Record :=
  s.records

/-- `JSONStore.find_by_id` (lines 236-242): linear scan, first match. -/
def find_by_id (s : StoreState) (rid : String) : Option Record :=
  (read_all s).find? (fun r => matchesId r rid)

/-- `JSONStore.create` (lines 244-266).  `uuidChars` is the character
sequence of `str(uuid.uuid4())`; the source keeps its first 8
characters as the generated id when the record has none.  The two
`datetime.now().isoformat()` calls are two successive clock readings. -/
def create (s : StoreState) (record : Record) (uuidChars : List Char) :
    Record × StoreState :=
  let r1 := if hasKey record "id" then record
            else setField record "id" (Value.vstr (String.mk (uuidChars.take 8)))
  let r2 := setField r1 "created_at" (Value.vtime s.clock)
  let r3 := setField r2 "updated_at" (Value.vtime (s.clock + 1))
  (r3, { records := s.records ++ [r3], clock := s.clock + 2 })

/-- The merged record produced by `update` when it finds a match
(lines 277-281): `data[i].update(updates)` then
`data[i]['updated_at'] = datetime.now().isoformat()`. -/
def mergeRecord (r : Record) (updates : Record) (t : Nat) : Record :=
  setField (dictUpdate r updates) "updated_at" (Value.vtime t)

/-- The scan of `update` over the array: replace the first record whose
id matches and return it, or report that none matched. -/
def updateScan (t : Nat) (rid : String) (u : Record) :
    List Record → Option (List Record × Record)
  | [] => none
  | r :: rs =>
    if matchesId r rid then
      let m := mergeRecord r u t
      some (m :: rs, m)
    else
      match updateScan t rid u rs with
      | some (rs2, m) => some (r :: rs2, m)
      | none => none

/-- `JSONStore.update` (lines 268-288): shallow-merge `updates` into the
first matching record, stamp `updated_at` with a fresh clock reading,
persist the whole array; `None` and an unchanged store when no record
matches (the single `now()` call happens only on the match branch). -/
def update (s : StoreState) (rid : String) (updates : Record) :
    Option Record × StoreState :=
  match updateScan s.clock rid updates s.records with
  | some (rs2, m) => (some m, { records := rs2, clock := s.clock + 1 })
  | none => (none, s)

/-- `JSONStore.delete` (lines 290-305): rebuild the array without every
matching record; `True` exactly when the array shrank. -/
def delete (s : StoreState) (rid : String) : Bool × StoreState :=
  let rs2 := s.records.filter (fun r => !(matchesId r rid))
  if rs2.length < s.records.length then
    (true, { records := rs2, clock := s.clock })
  else
    (false, s)

/-- `JSONStore.filter_records` (lines 307-321): records all of whose
filter keys are present with exactly the given value. -/
def filter_records (s : StoreState) (filters : Record) : List Record :=
  (read_all s).filter (fun r =>
    filters.all (fun p => getField r p.1 == some p.2))

end JSONStore

/-! ## Daily backup (`JSONStore._create_daily_backup`, lines 163-189)

For a fixed collection and a fixed calendar day, the only state the
backup routine consults is whether the collection's data file exists
and whether today's snapshot of it already exists.  The routine never
deletes a snapshot, and nothing else touches the backup directory
during the day. -/

/-- One call of `_create_daily_backup`, given whether the data file and
today's snapshot exist.  Result: (success, copied, snapshot exists
afterwards).  The source returns `True` on every non-exceptional path:
a missing source file returns `True` immediately with no copy; an
existing snapshot for today suppresses the copy; otherwise the file is
copied into the dated directory. -/
def create_daily_backup (dataExists backupExists : Bool) :
    Bool × Bool × Bool :=
  if !dataExists then (true, false, backupExists)
  else if backupExists then (true, false, true)
  else (true, true, true)

/-- A day of backup calls: `ds` lists, for each successive call, whether
the data file exists at that moment (creates/updates may bring the file
into existence between calls).  Returns the per-call copied flags. -/
def backupDay : Bool → List Bool → List Bool
  | _, [] => []
  | b, d :: ds =>
    let r := create_daily_backup d b
    r.2.1 :: backupDay r.2.2 ds

/-! ## Two concurrent `create` calls (json_store.py lines 244-266)

`create` reads the array under a shared lock (`_read_with_lock`),
appends the new record in memory, then writes the whole array under an
exclusive lock (`_write_with_lock`).  The shared lock is released at
the end of the read; no lock is held between the read and the write.
Each concurrent `create` is therefore a read step followed by a write
step, and any interleaving that keeps each process's read before its
write is permitted by the locks (in particular both reads may run
before either write: shared locks coexist, and the two exclusive
writes then run one after the other). -/

/-- A scheduler step of one of two concurrent `create` calls. -/
inductive CStep : Type where
  | read1 : CStep
  | write1 : CStep
  | read2 : CStep
  | write2 : CStep
deriving DecidableEq, Repr

/-- Shared file plus each process's in-memory copy of the array
(`data = self._read_with_lock(...)`). -/
structure ConcState : Type where
  file : List Record
  snap1 : List Record
  snap2 : List Record
deriving DecidableEq, Repr

/-- Effect of one step: a read copies the file into the process's local
array; a write replaces the whole file with the local array plus the
process's new record (`data.append(record)` then full-file write). -/
def cstep (r1 r2 : Record) (s : ConcState) : CStep → ConcState
  | CStep.read1 => { s with snap1 := s.file }
  | CStep.write1 => { s with file := s.snap1 ++ [r1] }
  | CStep.read2 => { s with snap2 := s.file }
  | CStep.write2 => { s with file := s.snap2 ++ [r2] }

/-- Run a schedule of steps of the two `create` calls from an initial
file content; result is the final file content. -/
def runSchedule (r1 r2 : Record) (init : List Record) (sched : List CStep) :
    List Record :=
  (sched.foldl (cstep r1 r2) { file := init, snap1 := [], snap2 := [] }).file

/-! ## Commission engine (`emar-delivery/utils/commissions.py`) -/

/-- Calendar dates as produced by `datetime.strptime(s, '%Y-%m-%d').date()`. -/
structure Date : Type where
  y : Nat
  m : Nat
  d : Nat
deriving DecidableEq, Repr

/-- Python `date` comparison `a < b`: lexicographic on (year, month, day). -/
def dateLt (a b : Date) : Bool :=
  decide (a.y < b.y) ||
    (a.y == b.y && (decide (a.m < b.m) || (a.m == b.m && decide (a.d < b.d))))

/-- A record of the `commission_rules` collection as the calculator reads
it: `is_active` is `rule.get('is_active', True)`, the dates are absent
(`None`) or parsed, and `commission_amount` is
`float(rule.get('commission_amount', 0))`. -/
structure CommissionRule : Type where
  driver_id : String
  client_id : String
  is_active : Bool
  start_date : Option Date
  end_date : Option Date
  commission_amount : ℚ
deriving Repr

/-- A record of the `drivers` collection, restricted to the fields the
calculators read.  `Option` fields are absent keys (`.get` gives `None`). -/
structure Driver : Type where
  id : String
  full_name : String
  primary_client_id : Option String
  primary_client_commission : Option ℚ
  secondary_client_id : Option String
  secondary_client_commission : Option ℚ
  default_commission_per_order : Option ℚ
  base_salary : Option ℚ
deriving Repr

/-- A record of the `clients` collection, restricted to the fields read. -/
structure Client : Type where
  id : String
  company_name : String
  commission_rate : Option ℚ
deriving Repr

/-- `config.json` contents as the calculators read them. -/
structure Config : Type where
  global_commission_per_order : Option ℚ
  currency : String
deriving Repr

/-- Python truthiness of a numeric-or-absent value: `None` and `0` are
falsy, every other number is truthy. -/
def truthyNum : Option ℚ → Bool
  | none => false
  | some q => q != 0

/-- Python `round(q, 3)`.  The source rounds binary floats half-to-even;
every monetary value appearing in the claims is an exact multiple of
1/1000, on which any 3-decimal rounding is the identity, so the
tie-breaking convention is immaterial here. -/
def pyRound3 (q : ℚ) : ℚ :=
  ((round (q * 1000) : ℤ) : ℚ) / 1000

/-- `CommissionCalculator._check_commission_rules` (lines 142-169): first
rule matching driver, client and the active flag whose date range
admits the order date; a matching rule outside its date range is
skipped (`continue`) and the scan goes on. -/
def check_commission_rules :
    List CommissionRule → String → String → Date → Option ℚ
  | [], _, _, _ => none
  | rule :: rs, dId, cId, od =>
    if rule.driver_id == dId && rule.client_id == cId && rule.is_active then
      if (match rule.start_date with
          | some sd => dateLt od sd
          | none => false) then
        check_commission_rules rs dId cId od
      else if (match rule.end_date with
          | some ed => dateLt ed od
          | none => false) then
        check_commission_rules rs dId cId od
      else
        some rule.commission_amount
    else
      check_commission_rules rs dId cId od

/-- `CommissionCalculator._has_client_specific_commission` (lines 171-174). -/
def has_client_specific_commission (driver : Driver) (client_id : String) :
    Bool :=
  driver.primary_client_id == some client_id ||
    driver.secondary_client_id == some client_id

/-- Result object of `calculate_commission`. -/
structure CommissionResult : Type where
  success : Bool
  commission : ℚ
  source : String
  driver_name : String
  client_name : String
  currency : String
deriving Repr

/-- `CommissionCalculator.calculate_commission` (lines 59-140): load the
driver and client by id, then resolve the amount through the priority
chain rule → driver-client-specific → driver default (truthy) → client
rate (truthy) → global fallback, and round to 3 decimals. -/
def calculate_commission (drivers : List Driver) (clients : List Client)
    (config : Config) (rules : List CommissionRule)
    (driver_id client_id : String) (order_date : Date) : CommissionResult :=
  match drivers.find? (fun d => d.id == driver_id) with
  | none =>
    { success := false, commission := 0, source := "", driver_name := "",
      client_name := "", currency := "" }
  | some driver =>
    match clients.find? (fun c => c.id == client_id) with
    | none =>
      { success := false, commission := 0, source := "", driver_name := "",
        client_name := "", currency := "" }
    | some client =>
      let pair :=
        match check_commission_rules rules driver_id client_id order_date with
        | some a => (a, "rule")
        | none =>
          if has_client_specific_commission driver client_id then
            if driver.primary_client_id == some client_id then
              (driver.primary_client_commission.getD 0, "driver_primary_client")
            else
              (driver.secondary_client_commission.getD 0,
               "driver_secondary_client")
          else if truthyNum driver.default_commission_per_order then
            (driver.default_commission_per_order.getD 0, "driver_default")
          else if truthyNum client.commission_rate then
            (client.commission_rate.getD 0, "client_rate")
          else
            (config.global_commission_per_order.getD (1 / 4), "global")
      { success := true, commission := pyRound3 pair.1, source := pair.2,
        driver_name := driver.full_name, client_name := client.company_name,
        currency := config.currency }

/-! ## Payroll engine (`utils/payroll.py`) -/

/-- One period entry of a monthly-orders record: dates are `None` when
the corresponding key is absent, the empty string, or fails to parse
(all three are skipped identically by the source). -/
structure Period : Type where
  date_from : Option Date
  date_to : Option Date
  num_orders : Int
deriving Repr

/-- One client entry of a monthly-orders record. -/
structure MonthlyEntry : Type where
  client_id : String
  commission_per_order : ℚ
  periods : List Period
deriving Repr

/-- A record of the `monthly_orders` collection (commission matrix). -/
structure MonthlyOrderRecord : Type where
  driver_id : String
  month : Nat
  year : Nat
  entries : List MonthlyEntry
deriving Repr

/-- The month-overlap test of
`CommissionCalculator.calculate_monthly_commission_total`
(commissions.py lines 206-218), embedded with its exact condition:
a period with a missing or unparsable date contributes nothing. -/
def period_in_month (year month : Nat) (p : Period) : Bool :=
  match p.date_from, p.date_to with
  | some f, some t =>
    (f.y == year && f.m == month) || (t.y == year && t.m == month) ||
      (decide (f.y ≤ year) && decide (f.m ≤ month) &&
       decide (t.y ≥ year) && decide (t.m ≥ month))
  | _, _ => false

/-- Orders of one client entry that fall in the target month
(commissions.py lines 198-216). -/
def client_orders_in_month (year month : Nat) (entry : MonthlyEntry) : Int :=
  entry.periods.foldl
    (fun acc p => if period_in_month year month p then acc + p.num_orders
                  else acc) 0

/-- Result object of `calculate_monthly_commission_total`, restricted to
the fields the payroll engine reads. -/
structure MonthlyCommissionResult : Type where
  success : Bool
  total_commission : ℚ
  order_count : Int
deriving Repr

/-- `CommissionCalculator.calculate_monthly_commission_total`
(commissions.py lines 176-258): over every monthly-orders record of
this driver and month/year, sum `commission_per_order * orders` for
each client entry with a positive order count; the total is rounded to
3 decimals at the end. -/
def calculate_monthly_commission_total
    (monthly_orders : List MonthlyOrderRecord) (driver_id : String)
    (year month : Nat) : MonthlyCommissionResult :=
  let step := fun (acc : ℚ × Int) (mr : MonthlyOrderRecord) =>
    if mr.driver_id == driver_id && mr.month == month && mr.year == year then
      mr.entries.foldl
        (fun acc2 entry =>
          let n := client_orders_in_month year month entry
          if n > 0 then
            (acc2.1 + entry.commission_per_order * (n : ℚ), acc2.2 + n)
          else acc2)
        acc
    else acc
  let tot := monthly_orders.foldl step (0, 0)
  { success := true, total_commission := pyRound3 tot.1,
    order_count := tot.2 }

/-- A record of the `advances` collection as the payroll engine reads
it: `status`, numeric `amount`/`paid_amount`, and the per-advance
deduction settings (`advance_deduction_mode` defaults to
`'fixed_amount'` and `advance_deduction_value` to `50` via `.get`). -/
structure Advance : Type where
  id : String
  driver_id : String
  status : String
  amount : ℚ
  paid_amount : ℚ
  advance_deduction_mode : String
  advance_deduction_value : ℚ
deriving Repr

/-- The per-advance deduction of `PayrollCalculator.get_driver_advances`
(payroll.py lines 87-100): fixed amount capped at the remaining
balance, or a percentage of base salary plus commission capped at the
remaining balance, or zero for an unknown mode. -/
def deduction_for_advance (a : Advance) (commission_total base_salary : ℚ) :
    ℚ :=
  let remaining := a.amount - a.paid_amount
  if a.advance_deduction_mode == "fixed_amount" then
    min a.advance_deduction_value remaining
  else if a.advance_deduction_mode == "percentage" then
    min (a.advance_deduction_value / 100 * (commission_total + base_salary))
      remaining
  else 0

/-- Result object of `get_driver_advances`, restricted to the fields
the payroll engine reads. -/
structure AdvancesResult : Type where
  success : Bool
  total_deduction : ℚ
  advance_count : Nat
deriving Repr

/-- `PayrollCalculator.get_driver_advances` (payroll.py lines 54-127):
filter the driver's advances with status `active` or `partial`, skip
those with no remaining balance, apply the per-advance deduction, keep
the positive ones, and round the total to 3 decimals.  The commission
total used by percentage-mode advances is computed exactly as the
source does, through `calculate_monthly_commission_total`. -/
def get_driver_advances (advances : List Advance) (drivers : List Driver)
    (monthly_orders : List MonthlyOrderRecord) (driver_id : String)
    (year month : Nat) : AdvancesResult :=
  let mine := advances.filter (fun a => a.driver_id == driver_id)
  let active := mine.filter
    (fun a => a.status == "active" || a.status == "partial")
  match drivers.find? (fun d => d.id == driver_id) with
  | none => { success := false, total_deduction := 0, advance_count := 0 }
  | some driver =>
    let ct := (calculate_monthly_commission_total monthly_orders driver_id
      year month).total_commission
    let base := driver.base_salary.getD 0
    let step := fun (acc : ℚ × Nat) (a : Advance) =>
      if a.amount - a.paid_amount ≤ 0 then acc
      else
        let ded := deduction_for_advance a ct base
        if ded > 0 then (acc.1 + ded, acc.2 + 1) else acc
    let tot := active.foldl step (0, 0)
    { success := true, total_deduction := pyRound3 tot.1,
      advance_count := tot.2 }

/-- Result object of `calculate_driver_payroll`, restricted to the
monetary fields. -/
structure PayrollResult : Type where
  success : Bool
  base_salary : ℚ
  commission_total : ℚ
  order_count : Int
  gross_salary : ℚ
  advance_deduction : ℚ
  net_salary : ℚ
deriving Repr

/-- `PayrollCalculator.calculate_driver_payroll` (payroll.py lines
129-186): base salary plus monthly commission total gives the gross,
minus the advance deductions gives the net, every monetary output
rounded to 3 decimals. -/
def calculate_driver_payroll (drivers : List Driver)
    (monthly_orders : List MonthlyOrderRecord) (advances : List Advance)
    (driver_id : String) (year month : Nat) : PayrollResult :=
  match drivers.find? (fun d => d.id == driver_id) with
  | none =>
    { success := false, base_salary := 0, commission_total := 0,
      order_count := 0, gross_salary := 0, advance_deduction := 0,
      net_salary := 0 }
  | some driver =>
    let base := driver.base_salary.getD 0
    let cr := calculate_monthly_commission_total monthly_orders driver_id
      year month
    let ar := get_driver_advances advances drivers monthly_orders driver_id
      year month
    if !ar.success then
      { success := false, base_salary := 0, commission_total := 0,
        order_count := 0, gross_salary := 0, advance_deduction := 0,
        net_salary := 0 }
    else
      let gross := base + cr.total_commission
      let net := gross - ar.total_deduction
      { success := true, base_salary := pyRound3 base,
        commission_total := pyRound3 cr.total_commission,
        order_count := cr.order_count, gross_salary := pyRound3 gross,
        advance_deduction := pyRound3 ar.total_deduction,
        net_salary := pyRound3 net }

/-! ## Concrete test data used by witnesses and counterexamples -/

/-- A fresh uuid string (`str(uuid.uuid4())` always has 36 characters;
any length ≥ 8 exercises the truncation). -/
def uuidA : List Char := "a1b2c3d4-e5f6-7890".toList

/-- A record without an `id` key, as in the round-trip property. -/
def recA : Record := [("a", Value.vnum 1)]

/-- An empty collection at clock 0. -/
def stateEmpty : StoreState := { records := [], clock := 0 }

/-- The spec's update example: a stored record with fields a=1, b=2. -/
def rec1 : Record :=
  [("id", Value.vstr "r1"), ("a", Value.vnum 1), ("b", Value.vnum 2),
   ("created_at", Value.vtime 0), ("updated_at", Value.vtime 1)]

/-- A store holding `rec1`, with the clock past its timestamps. -/
def state1 : StoreState := { records := [rec1], clock := 2 }

/-- The partial field map of the spec's update example: b=3. -/
def upd1 : Record := [("b", Value.vnum 3)]

/-- A stored record whose `created_at` an update is about to touch. -/
def rec7 : Record :=
  [("id", Value.vstr "r1"), ("created_at", Value.vtime 0),
   ("updated_at", Value.vtime 1)]

/-- A store holding `rec7`. -/
def state7 : StoreState := { records := [rec7], clock := 2 }

/-- A partial field map that itself contains a `created_at` key. -/
def upd7 : Record := [("created_at", Value.vtime 99)]

/-- The record the first concurrent `create` appends. -/
def c9rec1 : Record := [("id", Value.vstr "p1")]

/-- The record the second concurrent `create` appends. -/
def c9rec2 : Record := [("id", Value.vstr "p2")]

/-- A lock-legal schedule: both shared-lock reads complete, then the two
exclusive-lock writes run one after the other.  Each process's read
precedes its write, as the source's program order requires. -/
def c9sched : List CStep :=
  [CStep.read1, CStep.read2, CStep.write1, CStep.write2]

/-- Driver `D1` of the commission-priority scenario:
`default_commission_per_order = 0.300`, no client-specific rates. -/
def driverD1 : Driver :=
  { id := "D1", full_name := "Driver One", primary_client_id := none,
    primary_client_commission := none, secondary_client_id := none,
    secondary_client_commission := none,
    default_commission_per_order := some (3 / 10), base_salary := none }

/-- Client `C1` of the commission-priority scenario:
`commission_rate = 0.200`. -/
def clientC1 : Client :=
  { id := "C1", company_name := "Client One",
    commission_rate := some (1 / 5) }

/-- A configuration with the stock global fallback. -/
def config1 : Config :=
  { global_commission_per_order := some (1 / 4), currency := "KWD" }

/-- A commission rule for `(D1, C1)`, active, amount `0.500`, valid
through 2025. -/
def ruleD1C1 : CommissionRule :=
  { driver_id := "D1", client_id := "C1", is_active := true,
    start_date := some ⟨2025, 1, 1⟩, end_date := some ⟨2025, 12, 31⟩,
    commission_amount := 1 / 2 }

/-- An order date inside the rule's validity range. -/
def date0 : Date := ⟨2025, 6, 15⟩

/-- Driver `D6` of the payroll scenario: `base_salary = 300.000`. -/
def driverD6 : Driver :=
  { id := "D6", full_name := "Driver Six", primary_client_id := none,
    primary_client_commission := none, secondary_client_id := none,
    secondary_client_commission := none,
    default_commission_per_order := none, base_salary := some 300 }

/-- A monthly-orders record giving `D6` a June-2025 commission total of
`0.750 * 61 = 45.750`. -/
def monthly6 : MonthlyOrderRecord :=
  { driver_id := "D6", month := 6, year := 2025,
    entries :=
      [{ client_id := "C1", commission_per_order := 3 / 4,
         periods :=
           [{ date_from := some ⟨2025, 6, 1⟩, date_to := some ⟨2025, 6, 30⟩,
              num_orders := 61 }] }] }

/-- One active advance with remaining balance `150 - 50 = 100.000`,
deduction mode `fixed_amount`, deduction value `50.000`. -/
def advance6 : Advance :=
  { id := "A1", driver_id := "D6", status := "active", amount := 150,
    paid_amount := 50, advance_deduction_mode := "fixed_amount",
    advance_deduction_value := 50 }

/-! # Theorems -/

/-! ## Association-list (dict) lemmas -/

theorem find?_setField_self (r : Record) (k : String) (v : Value) :
    (setField r k v).find? (fun p => p.1 == k) = some (k, v) := by
  induction r with
  | nil => simp [setField]
  | cons p rs ih =>
    by_cases h : p.1 = k
    · simp [setField, h]
    · simp [setField, h, ih]

theorem getField_setField_self (r : Record) (k : String) (v : Value) :
    getField (setField r k v) k = some v := by
  rw [getField, find?_setField_self]
  rfl

theorem find?_setField_ne (r : Record) (k k2 : String) (v : Value)
    (h : k2 ≠ k) :
    (setField r k v).find? (fun p => p.1 == k2) =
      r.find? (fun p => p.1 == k2) := by
  induction r with
  | nil => simp [setField, Ne.symm h]
  | cons p rs ih =>
    by_cases hp : p.1 = k
    · have hkk : (k == k2) = false := beq_eq_false_iff_ne.mpr (fun he => h he.symm)
      simp [setField, hp, hkk]
    · by_cases hp2 : p.1 = k2
      · simp [setField, hp, hp2, h]
      · simp [setField, hp, hp2, ih]

theorem getField_setField_ne (r : Record) (k k2 : String) (v : Value)
    (h : k2 ≠ k) : getField (setField r k v) k2 = getField r k2 := by
  rw [getField, find?_setField_ne r k k2 v h, getField]

theorem getField_eq_none_of_hasKey_false (r : Record) (k : String)
    (h : hasKey r k = false) : getField r k = none := by
  induction r with
  | nil => rfl
  | cons p rs ih =>
    rw [hasKey, List.any_cons] at h
    rw [Bool.or_eq_false_iff] at h
    rw [getField, List.find?_cons_of_neg _ (by simp [h.1]), ← getField]
    exact ih h.2

theorem getField_dictUpdate_not_key (r u : Record) (k : String)
    (h : hasKey u k = false) :
    getField (dictUpdate r u) k = getField r k := by
  induction u generalizing r with
  | nil => rfl
  | cons p u2 ih =>
    rw [hasKey, List.any_cons, Bool.or_eq_false_iff] at h
    have step : dictUpdate r (p :: u2) = dictUpdate (setField r p.1 p.2) u2 := rfl
    rw [step, ih (setField r p.1 p.2) h.2,
      getField_setField_ne _ _ _ _ (Ne.symm (by simpa using h.1))]

theorem getField_dictUpdate_key (r u : Record) (k : String) (v : Value)
    (hnd : (u.map Prod.fst).Nodup) (hv : getField u k = some v) :
    getField (dictUpdate r u) k = some v := by
  induction u generalizing r with
  | nil => simp [getField] at hv
  | cons p u2 ih =>
    have step : dictUpdate r (p :: u2) = dictUpdate (setField r p.1 p.2) u2 := rfl
    rw [List.map_cons, List.nodup_cons] at hnd
    by_cases hp : p.1 = k
    · have hv1 : v = p.2 := by
        rw [getField, List.find?_cons_of_pos _ (by simp [hp])] at hv
        simpa using hv.symm
      have hkey : hasKey u2 p.1 = false := by
        rw [hasKey, List.any_eq_false]
        intro x hx
        simp only [beq_iff_eq]
        exact fun he => hnd.1 (he ▸ List.mem_map_of_mem Prod.fst hx)
      rw [step, getField_dictUpdate_not_key _ _ _ (hp ▸ hkey), hv1, ← hp]
      exact getField_setField_self r p.1 p.2
    · have hv2 : getField u2 k = some v := by
        rw [getField, List.find?_cons_of_neg _ (by simp [hp])] at hv
        exact hv
      exact step ▸ ih (setField r p.1 p.2) hnd.2 hv2

theorem hasKey_false_of_forall (u : Record) (k : String)
    (h : ∀ p ∈ u, p.1 ≠ k) : hasKey u k = false := by
  rw [hasKey, List.any_eq_false]
  intro x hx
  simp only [beq_iff_eq]
  exact h x hx

theorem updateScan_eq_none (t : Nat) (rid : String) (u : Record)
    (l : List Record) (h : ∀ x ∈ l, matchesId x rid = false) :
    JSONStore.updateScan t rid u l = none := by
  induction l with
  | nil => rfl
  | cons r rs ih =>
    rw [JSONStore.updateScan]
    simp [h r (List.mem_cons_self r rs),
      ih (fun x hx => h x (List.mem_cons_of_mem r hx))]

theorem updateScan_append (t : Nat) (rid : String) (u : Record)
    (pre post : List Record) (r : Record)
    (hpre : ∀ x ∈ pre, matchesId x rid = false)
    (hr : matchesId r rid = true) :
    JSONStore.updateScan t rid u (pre ++ r :: post) =
      some (pre ++ JSONStore.mergeRecord r u t :: post,
            JSONStore.mergeRecord r u t) := by
  induction pre with
  | nil => simp [JSONStore.updateScan, hr]
  | cons p ps ih =>
    have hp : matchesId p rid = false := hpre p (List.mem_cons_self p ps)
    simp [JSONStore.updateScan, hp,
      ih (fun x hx => hpre x (List.mem_cons_of_mem p hx))]

/-! ## C4 — read_all degrades to empty, never raises -/

/-- C4: for an absent collection file, an empty file, or a file holding
invalid JSON, `read_all` returns the empty sequence; the embedding is a
total function, so no exception escapes on any of these inputs. -/
theorem c4_read_all_never_raises :
    read_all_file FileContent.absent = [] ∧
    read_all_file FileContent.emptyFile = [] ∧
    read_all_file FileContent.malformed = [] :=
  ⟨rfl, rfl, rfl⟩

/-! ## C10 — valid non-array JSON degrades to empty -/

/-- C10: when the collection file parses to a JSON value whose top
level is not an array (object, string, number, boolean or null),
`read_all` returns the empty sequence, exactly like malformed JSON. -/
theorem c10_nonarray_json_reads_empty (v : JVal) (h : v.isList = false) :
    read_all_file (FileContent.content v) = [] := by
  cases v with
  | jarr l => simp [JVal.isList] at h
  | jnull => rfl
  | jbool b => rfl
  | jnum q => rfl
  | jstr s => rfl
  | jobj l => rfl

/-- Witness for C10 at a concrete top-level object. -/
theorem c10_nonarray_json_reads_empty_witness :
    (JVal.jobj [("x", JVal.jnum 1)]).isList = false ∧
    read_all_file (FileContent.content (JVal.jobj [("x", JVal.jnum 1)])) = [] :=
  ⟨rfl, c10_nonarray_json_reads_empty (JVal.jobj [("x", JVal.jnum 1)]) rfl⟩

/-! ## C8 — daily backup copies at most once per day -/

theorem backupDay_after_copy (ds : List Bool) :
    backupDay true ds = List.replicate ds.length false := by
  induction ds with
  | nil => rfl
  | cons d ds ih =>
    cases d <;> simp [backupDay, create_daily_backup, ih, List.replicate]

/-- C8: over any sequence of backup calls within one calendar day
(whatever happens to the data file in between), at most one call
performs a copy; if the source file exists at the first call of the
day, that call copies and every later call of the day performs no
copy; and a missing source file is reported as success with no copy
and no state change. -/
theorem c8_daily_backup_idempotent :
    (∀ ds : List Bool, (backupDay false ds).count true ≤ 1) ∧
    (∀ ds : List Bool,
      backupDay false (true :: ds) = true :: List.replicate ds.length false) ∧
    (∀ b : Bool, create_daily_backup false b = (true, false, b)) := by
  refine ⟨?_, ?_, ?_⟩
  · intro ds
    induction ds with
    | nil => simp [backupDay]
    | cons d ds ih =>
      cases d
      · simpa [backupDay, create_daily_backup] using ih
      · simp [backupDay, create_daily_backup, backupDay_after_copy,
          List.count_replicate]
  · intro ds
    simp [backupDay, create_daily_backup, backupDay_after_copy]
  · intro b
    rfl

/-! ## C9 — two concurrent creates can lose an update -/

/-- C9 (refuting the claim on the code): under the lock-legal schedule
read1, read2, write1, write2 — both `create` calls take their shared
read locks, then their exclusive write locks one after the other — the
final file holds only the second record: the count is the initial
count plus one, not plus two, and the first record is lost. -/
theorem c9_concurrent_creates_lose_update :
    runSchedule c9rec1 c9rec2 [] c9sched = [c9rec2] ∧
    (runSchedule c9rec1 c9rec2 [] c9sched).length = 1 ∧
    c9rec1 ∉ runSchedule c9rec1 c9rec2 [] c9sched := by
  refine ⟨rfl, rfl, ?_⟩
  intro hmem
  rw [show runSchedule c9rec1 c9rec2 [] c9sched = [c9rec2] from rfl] at hmem
  simp [c9rec1, c9rec2] at hmem

/-! ## C3 — delete returns true iff the record existed -/

/-- C3: `delete` returns true exactly when a record with the id existed
beforehand, and then the persisted array no longer contains any record
with that id, `find_by_id` on it returns absent, and a repeated
`delete` with no intervening create returns false with the store
unchanged; when no record matched, `delete` returns false and leaves
the store unchanged. -/
theorem c3_delete_iff_existed :
    (∀ (s : StoreState) (i : String) (r : Record),
      JSONStore.find_by_id s i = some r →
      (JSONStore.delete s i).1 = true ∧
      (∀ x ∈ (JSONStore.delete s i).2.records, matchesId x i = false) ∧
      JSONStore.find_by_id (JSONStore.delete s i).2 i = none ∧
      JSONStore.delete (JSONStore.delete s i).2 i =
        (false, (JSONStore.delete s i).2)) ∧
    (∀ (s : StoreState) (i : String),
      JSONStore.find_by_id s i = none →
      JSONStore.delete s i = (false, s)) := by
  constructor
  · intro s i r hfind
    rw [JSONStore.find_by_id, JSONStore.read_all] at hfind
    have hmem : r ∈ s.records := List.mem_of_find?_eq_some hfind
    have hr : matchesId r i = true := (List.find?_eq_some.mp hfind).1
    have hlt : (s.records.filter (fun x => !(matchesId x i))).length <
        s.records.length :=
      List.length_filter_lt_length_iff_exists.mpr ⟨r, hmem, by simp [hr]⟩
    have hdel : JSONStore.delete s i =
        (true, { records := s.records.filter (fun x => !(matchesId x i)),
                 clock := s.clock }) := by
      simp [JSONStore.delete, hlt]
    have hall : ∀ x ∈ s.records.filter (fun x => !(matchesId x i)),
        matchesId x i = false := by
      intro x hx
      have := (List.mem_filter.mp hx).2
      simpa using this
    refine ⟨by rw [hdel], by rw [hdel]; exact hall, ?_, ?_⟩
    · rw [hdel, JSONStore.find_by_id, JSONStore.read_all]
      exact List.find?_eq_none.mpr (fun x hx => by simp [hall x hx])
    · rw [hdel]
      have hself2 : (s.records.filter (fun x => !(matchesId x i))).filter
          (fun x => !(matchesId x i)) =
          s.records.filter (fun x => !(matchesId x i)) :=
        List.filter_eq_self.mpr (fun x hx => by simp [hall x hx])
      simp [JSONStore.delete, hself2]
  · intro s i hfind
    rw [JSONStore.find_by_id, JSONStore.read_all] at hfind
    have hself : (s.records.filter (fun x => !(matchesId x i))) = s.records :=
      List.filter_eq_self.mpr
        (fun x hx => by simp [List.find?_eq_none.mp hfind x hx])
    simp [JSONStore.delete, hself]

/-- Witness for C3 at the concrete one-record store. -/
theorem c3_delete_iff_existed_witness :
    (JSONStore.delete state1 "r1").1 = true ∧
    (∀ x ∈ (JSONStore.delete state1 "r1").2.records,
      matchesId x "r1" = false) ∧
    JSONStore.find_by_id (JSONStore.delete state1 "r1").2 "r1" = none ∧
    JSONStore.delete (JSONStore.delete state1 "r1").2 "r1" =
      (false, (JSONStore.delete state1 "r1").2) :=
  c3_delete_iff_existed.1 state1 "r1" rec1 rfl

/-! ## C1 — update shallow-merges, refreshes updated_at, persists -/

/-- C1: for a stored record `r` with id `i` (whose `updated_at` is a
past clock reading), `update` returns the shallow merge — keys of the
partial map overwrite, all other fields keep their prior values — with
`updated_at` refreshed to the current clock reading, strictly greater
than the prior value, and persists the whole array with only that
record replaced; for an id with no matching record, `update` returns
the absent marker and leaves the store unchanged. -/
theorem c1_update_shallow_merges :
    (∀ (s : StoreState) (i : String) (u : Record) (r : Record) (t0 : Nat),
      JSONStore.find_by_id s i = some r →
      (u.map Prod.fst).Nodup →
      getField r "updated_at" = some (Value.vtime t0) →
      t0 < s.clock →
      ∃ pre post,
        s.records = pre ++ r :: post ∧
        JSONStore.update s i u =
          (some (JSONStore.mergeRecord r u s.clock),
           { records := pre ++ JSONStore.mergeRecord r u s.clock :: post,
             clock := s.clock + 1 }) ∧
        (∀ k, k ≠ "updated_at" → hasKey u k = false →
          getField (JSONStore.mergeRecord r u s.clock) k = getField r k) ∧
        (∀ k v, k ≠ "updated_at" → getField u k = some v →
          getField (JSONStore.mergeRecord r u s.clock) k = some v) ∧
        getField (JSONStore.mergeRecord r u s.clock) "updated_at" =
          some (Value.vtime s.clock) ∧
        t0 < s.clock) ∧
    (∀ (s : StoreState) (i : String) (u : Record),
      JSONStore.find_by_id s i = none →
      JSONStore.update s i u = (none, s)) := by
  constructor
  · intro s i u r t0 hfind hnd hprior hlt
    rw [JSONStore.find_by_id, JSONStore.read_all] at hfind
    obtain ⟨hpr, pre, post, hsplit, hpre⟩ := List.find?_eq_some.mp hfind
    have hscan : JSONStore.updateScan s.clock i u s.records =
        some (pre ++ JSONStore.mergeRecord r u s.clock :: post,
              JSONStore.mergeRecord r u s.clock) := by
      rw [hsplit]
      exact updateScan_append _ _ _ _ _ _
        (fun x hx => by simpa using hpre x hx) hpr
    refine ⟨pre, post, hsplit, by simp [JSONStore.update, hscan],
      ?_, ?_, getField_setField_self _ _ _, hlt⟩
    · intro k hk hku
      rw [JSONStore.mergeRecord, getField_setField_ne _ _ _ _ hk,
        getField_dictUpdate_not_key _ _ _ hku]
    · intro k v hk hv
      rw [JSONStore.mergeRecord, getField_setField_ne _ _ _ _ hk]
      exact getField_dictUpdate_key _ _ _ _ hnd hv
  · intro s i u hfind
    rw [JSONStore.find_by_id, JSONStore.read_all] at hfind
    have hnone : JSONStore.updateScan s.clock i u s.records = none :=
      updateScan_eq_none _ _ _ _
        (fun x hx => by simp [List.find?_eq_none.mp hfind x hx])
    simp [JSONStore.update, hnone]

/-- Witness for C1: update of the spec's example record a=1, b=2 with
the map b=3 in the concrete one-record store. -/
theorem c1_update_shallow_merges_witness :
    ∃ pre post,
      state1.records = pre ++ rec1 :: post ∧
      JSONStore.update state1 "r1" upd1 =
        (some (JSONStore.mergeRecord rec1 upd1 state1.clock),
         { records := pre ++ JSONStore.mergeRecord rec1 upd1 state1.clock
             :: post,
           clock := state1.clock + 1 }) ∧
      (∀ k, k ≠ "updated_at" → hasKey upd1 k = false →
        getField (JSONStore.mergeRecord rec1 upd1 state1.clock) k =
          getField rec1 k) ∧
      (∀ k v, k ≠ "updated_at" → getField upd1 k = some v →
        getField (JSONStore.mergeRecord rec1 upd1 state1.clock) k = some v) ∧
      getField (JSONStore.mergeRecord rec1 upd1 state1.clock) "updated_at" =
        some (Value.vtime state1.clock) ∧
      1 < state1.clock :=
  c1_update_shallow_merges.1 state1 "r1" upd1 rec1 1 rfl
    (by simp [upd1]) rfl (by decide)

/-! ## C2 — create round-trip -/

/-- Counterexample to C2 as stated: the source stamps `created_at` and
`updated_at` with two separate `datetime.now()` calls (json_store.py
lines 258-259), so under an advancing clock the two readings differ:
at the concrete input the created record has `created_at` from the
first reading and `updated_at` from the second, and they are not
equal. -/
theorem c2_create_timestamps_differ :
    getField (JSONStore.create stateEmpty recA uuidA).1 "created_at" =
      some (Value.vtime 0) ∧
    getField (JSONStore.create stateEmpty recA uuidA).1 "updated_at" =
      some (Value.vtime 1) ∧
    getField (JSONStore.create stateEmpty recA uuidA).1 "created_at" ≠
      getField (JSONStore.create stateEmpty recA uuidA).1 "updated_at" := by
  refine ⟨rfl, rfl, ?_⟩
  rw [show getField (JSONStore.create stateEmpty recA uuidA).1 "created_at" =
      some (Value.vtime 0) from rfl,
    show getField (JSONStore.create stateEmpty recA uuidA).1 "updated_at" =
      some (Value.vtime 1) from rfl]
  simp

/-- C2 amended: for a record without an `id` key and a generated id that
is fresh for the collection (uuid collisions are not checked — a
limitation the design notes call out), `create` stores and returns a
record carrying the generated 8-character id, both timestamps taken at
creation — `created_at` from the first clock reading and `updated_at`
from the immediately following one, so `created_at ≤ updated_at`
rather than equality — and all other fields exactly those of the
input; a subsequent `find_by_id` on the generated id returns that very
record. -/
theorem c2_create_roundtrip_amended :
    ∀ (s : StoreState) (r : Record) (uuidChars : List Char),
      hasKey r "id" = false →
      8 ≤ uuidChars.length →
      (∀ x ∈ s.records, matchesId x (String.mk (uuidChars.take 8)) = false) →
      getField (JSONStore.create s r uuidChars).1 "id" =
        some (Value.vstr (String.mk (uuidChars.take 8))) ∧
      (String.mk (uuidChars.take 8)).length = 8 ∧
      JSONStore.find_by_id (JSONStore.create s r uuidChars).2
          (String.mk (uuidChars.take 8)) =
        some (JSONStore.create s r uuidChars).1 ∧
      getField (JSONStore.create s r uuidChars).1 "created_at" =
        some (Value.vtime s.clock) ∧
      getField (JSONStore.create s r uuidChars).1 "updated_at" =
        some (Value.vtime (s.clock + 1)) ∧
      (∀ k, k ≠ "id" → k ≠ "created_at" → k ≠ "updated_at" →
        getField (JSONStore.create s r uuidChars).1 k = getField r k) := by
  intro s r uuidChars hid hlen hfresh
  have h1 : (JSONStore.create s r uuidChars).1 =
      setField (setField (setField r "id"
          (Value.vstr (String.mk (uuidChars.take 8))))
        "created_at" (Value.vtime s.clock))
        "updated_at" (Value.vtime (s.clock + 1)) := by
    simp [JSONStore.create, hid]
  have h2 : (JSONStore.create s r uuidChars).2.records =
      s.records ++ [(JSONStore.create s r uuidChars).1] := by
    simp [JSONStore.create, hid]
  have hgid : getField (JSONStore.create s r uuidChars).1 "id" =
      some (Value.vstr (String.mk (uuidChars.take 8))) := by
    rw [h1, getField_setField_ne _ _ _ _ (by decide),
      getField_setField_ne _ _ _ _ (by decide), getField_setField_self]
  refine ⟨hgid, ?_, ?_, ?_, ?_, ?_⟩
  · have hmk : (String.mk (uuidChars.take 8)).length =
        (uuidChars.take 8).length := rfl
    rw [hmk, List.length_take]
    exact Nat.min_eq_left hlen
  · rw [JSONStore.find_by_id, JSONStore.read_all, h2, List.find?_append,
      List.find?_eq_none.mpr
        (fun x hx => by simp [hfresh x hx])]
    have hm : matchesId (JSONStore.create s r uuidChars).1
        (String.mk (uuidChars.take 8)) = true := by
      rw [matchesId, hgid]
      simp
    simp [List.find?_cons, hm]
  · rw [h1, getField_setField_ne _ _ _ _ (by decide), getField_setField_self]
  · rw [h1, getField_setField_self]
  · intro k hk1 hk2 hk3
    rw [h1, getField_setField_ne _ _ _ _ hk3, getField_setField_ne _ _ _ _ hk2,
      getField_setField_ne _ _ _ _ hk1]

/-- Witness for the amended C2 at a concrete record and uuid in the
empty collection. -/
theorem c2_create_roundtrip_amended_witness :
    getField (JSONStore.create stateEmpty recA uuidA).1 "id" =
      some (Value.vstr (String.mk (uuidA.take 8))) ∧
    (String.mk (uuidA.take 8)).length = 8 ∧
    JSONStore.find_by_id (JSONStore.create stateEmpty recA uuidA).2
        (String.mk (uuidA.take 8)) =
      some (JSONStore.create stateEmpty recA uuidA).1 ∧
    getField (JSONStore.create stateEmpty recA uuidA).1 "created_at" =
      some (Value.vtime stateEmpty.clock) ∧
    getField (JSONStore.create stateEmpty recA uuidA).1 "updated_at" =
      some (Value.vtime (stateEmpty.clock + 1)) ∧
    (∀ k, k ≠ "id" → k ≠ "created_at" → k ≠ "updated_at" →
      getField (JSONStore.create stateEmpty recA uuidA).1 k =
        getField recA k) :=
  c2_create_roundtrip_amended stateEmpty recA uuidA rfl (by decide)
    (fun x hx => absurd hx (List.not_mem_nil x))

/-! ## C7 — created_at immutability -/

/-- Counterexample to C7 as stated: `update` applies `dict.update`
with every key of the partial map (json_store.py line 280), so a
partial map that itself contains a `created_at` key overwrites the
value assigned at creation: the stored record had `created_at` of the
creation reading 0, and after the update it is 99. -/
theorem c7_update_overwrites_created_at :
    getField rec7 "created_at" = some (Value.vtime 0) ∧
    (JSONStore.update state7 "r1" upd7).1.map
        (fun m => getField m "created_at") =
      some (some (Value.vtime 99)) :=
  ⟨rfl, rfl⟩

/-- C7 amended: for every partial field map that does not itself
contain a `created_at` key, a successful `update` leaves the record's
`created_at` unchanged while refreshing `updated_at` to the current
clock reading. -/
theorem c7_created_at_immutable_amended :
    ∀ (s : StoreState) (i : String) (u : Record) (r : Record),
      JSONStore.find_by_id s i = some r →
      hasKey u "created_at" = false →
      ∃ m, (JSONStore.update s i u).1 = some m ∧
        getField m "created_at" = getField r "created_at" ∧
        getField m "updated_at" = some (Value.vtime s.clock) := by
  intro s i u r hfind hku
  rw [JSONStore.find_by_id, JSONStore.read_all] at hfind
  obtain ⟨hpr, pre, post, hsplit, hpre⟩ := List.find?_eq_some.mp hfind
  have hscan : JSONStore.updateScan s.clock i u s.records =
      some (pre ++ JSONStore.mergeRecord r u s.clock :: post,
            JSONStore.mergeRecord r u s.clock) := by
    rw [hsplit]
    exact updateScan_append _ _ _ _ _ _
      (fun x hx => by simpa using hpre x hx) hpr
  refine ⟨JSONStore.mergeRecord r u s.clock, by simp [JSONStore.update, hscan],
    ?_, getField_setField_self _ _ _⟩
  rw [JSONStore.mergeRecord, getField_setField_ne _ _ _ _ (by decide),
    getField_dictUpdate_not_key _ _ _ hku]

/-- Witness for the amended C7 at a concrete update that touches only
field b. -/
theorem c7_created_at_immutable_amended_witness :
    ∃ m, (JSONStore.update state1 "r1" upd1).1 = some m ∧
      getField m "created_at" = getField rec1 "created_at" ∧
      getField m "updated_at" = some (Value.vtime state1.clock) :=
  c7_created_at_immutable_amended state1 "r1" upd1 rec1 rfl rfl

/-! ## C5 — commission priority order -/

/-- C5: with driver D1 (`default_commission_per_order = 0.300`), client
C1 (`commission_rate = 0.200`) and no commission rule for (D1, C1),
the calculation returns 0.300 with source `driver_default`; after
adding an active rule for (D1, C1) valid on the order date with amount
0.500, it returns 0.500 with source `rule`. -/
theorem c5_commission_priority_order :
    (calculate_commission [driverD1] [clientC1] config1 [] "D1" "C1"
        date0).success = true ∧
    (calculate_commission [driverD1] [clientC1] config1 [] "D1" "C1"
        date0).commission = 3 / 10 ∧
    (calculate_commission [driverD1] [clientC1] config1 [] "D1" "C1"
        date0).source = "driver_default" ∧
    (calculate_commission [driverD1] [clientC1] config1 [ruleD1C1] "D1" "C1"
        date0).success = true ∧
    (calculate_commission [driverD1] [clientC1] config1 [ruleD1C1] "D1" "C1"
        date0).commission = 1 / 2 ∧
    (calculate_commission [driverD1] [clientC1] config1 [ruleD1C1] "D1" "C1"
        date0).source = "rule" := by
  refine ⟨?_, ?_, ?_, ?_, ?_, ?_⟩ <;>
    simp [calculate_commission, check_commission_rules,
      has_client_specific_commission, truthyNum, driverD1, clientC1,
      config1, ruleD1C1, date0, dateLt, List.find?, pyRound3] <;>
    norm_num [round_eq]

/-! ## C6 — payroll net calculation -/

/-- C6: the driver with base salary 300.000, monthly commission total
45.750 and one active advance with remaining balance 100.000 in
fixed-amount mode with value 50.000 gets gross 345.750, advance
deduction 50.000 and net 295.750 (3-decimal rounding throughout); and
in fixed-amount mode the deduction for an advance is the minimum of
the deduction value and the remaining balance. -/
theorem c6_payroll_net_calculation :
    ((calculate_driver_payroll [driverD6] [monthly6] [advance6] "D6" 2025
        6).success = true ∧
     (calculate_driver_payroll [driverD6] [monthly6] [advance6] "D6" 2025
        6).commission_total = 4575 / 100 ∧
     (calculate_driver_payroll [driverD6] [monthly6] [advance6] "D6" 2025
        6).gross_salary = 34575 / 100 ∧
     (calculate_driver_payroll [driverD6] [monthly6] [advance6] "D6" 2025
        6).advance_deduction = 50 ∧
     (calculate_driver_payroll [driverD6] [monthly6] [advance6] "D6" 2025
        6).net_salary = 29575 / 100) ∧
    (∀ (a : Advance) (ct bs : ℚ),
      a.advance_deduction_mode = "fixed_amount" →
      deduction_for_advance a ct bs =
        min a.advance_deduction_value (a.amount - a.paid_amount)) := by
  constructor
  · refine ⟨?_, ?_, ?_, ?_, ?_⟩ <;>
      simp [calculate_driver_payroll, calculate_monthly_commission_total,
        get_driver_advances, deduction_for_advance, client_orders_in_month,
        period_in_month, driverD6, monthly6, advance6, List.find?,
        List.foldl, List.filter, pyRound3, min_def] <;>
      norm_num [round_eq]
  · intro a ct bs h
    simp [deduction_for_advance, h]

/-- Witness for C6's fixed-amount conjunct at the concrete advance. -/
theorem c6_payroll_net_calculation_witness :
    advance6.advance_deduction_mode = "fixed_amount" ∧
    deduction_for_advance advance6 (4575 / 100) 300 =
      min advance6.advance_deduction_value
        (advance6.amount - advance6.paid_amount) :=
  ⟨rfl, c6_payroll_net_calculation.2 advance6 (4575 / 100) 300 rfl⟩
